import Mathlib

/-!
Shallow embedding of the USTAR tar extractor in `src/lib/tar.ts`.

Bytes are modelled as `Nat`, byte buffers as `List Nat`, JavaScript strings
as Lean `String` (each byte below 128 decodes to the same ASCII character,
as with `TextDecoder` on ASCII input), and JavaScript numbers holding integral
values as `Int`.  Filesystem effects are modelled as an explicit list of
`FsAction` values; the decompression step (`Bun.gunzipSync`) is external to
the component under specification, so the model takes the decompressed
buffer directly.  `process.cwd()` is passed explicitly as the `cwd`
argument of every path-resolving function.
-/

set_option maxRecDepth 40000

namespace Tar

/-- Entry kinds of `TarEntry.type` in the source (`'file' | 'directory' | 'symlink'`). -/
inductive EntryType
  | file
  | directory
  | symlink
  deriving DecidableEq, Repr

/-- `TarEntry` of the source.  The optional `mode` field is declared in the
source interface but never assigned by `parseHeader`, so it is omitted. -/
structure TarEntry where
  name : String
  size : Int
  type : EntryType
  linkname : Option String
  deriving DecidableEq, Repr

/-- `ExtractOptions` of the source: `strip` (absent or `0` both mean "do not
strip", matching the truthiness test `options.strip && options.strip > 0`)
and the optional `filter` predicate. -/
structure ExtractOptions where
  strip : Nat
  filter : Option (TarEntry → Bool)

/-- Filesystem effects of one extraction call.
`ensureDir p` models `if (!existsSync(p)) await mkdir(p, {recursive:true})`
(create-if-missing, used for the destination root and for file parents);
`makeDir p` models the unconditional `mkdir(p, {recursive:true})` for a
directory entry; `writeData p bytes` models `writeFile(p, bytes)`. -/
inductive FsAction
  | ensureDir (p : String)
  | makeDir (p : String)
  | writeData (p : String) (data : List Nat)
  deriving DecidableEq, Repr

/-- Clamp a JavaScript `TypedArray.prototype.slice` index into `0..len`:
negative indices count from the end of the array. -/
def jsIndex (len : Nat) (i : Int) : Nat :=
  if i < 0 then ((len : Int) + i).toNat else min i.toNat len

/-- `a.slice(b, e)` on a `Uint8Array`, including the JavaScript treatment of
negative and out-of-range indices. -/
def jsSlice (a : List Nat) (b e : Int) : List Nat :=
  (a.take (jsIndex a.length e)).drop (jsIndex a.length b)

/-- JavaScript string operations are modelled structurally over the
character list of a Lean `String` (the built-in `String` functions are not
used so that every definition evaluates by plain structural recursion). -/
def strStartsWith (s start : String) : Bool :=
  List.isPrefixOf start.data s.data

/-- Whitespace recognised by JavaScript `trim` and `parseInt` (the ASCII
part; exotic Unicode space code points cannot appear in byte-decoded
header fields below 128). -/
def isWsChar (c : Char) : Bool :=
  c = ' ' || c = '\t' || c = '\n' || c = '\r' || c = Char.ofNat 11 || c = Char.ofNat 12

/-- JavaScript `String.prototype.trim`. -/
def jsTrim (s : String) : String :=
  String.mk (((s.data.dropWhile isWsChar).reverse.dropWhile isWsChar).reverse)

/-- `split('/')` helper: `cur` holds the pending segment reversed. -/
def splitSlashAux : List Char → List Char → List String
  | [], cur => [String.mk cur.reverse]
  | '/' :: rest, cur => String.mk cur.reverse :: splitSlashAux rest []
  | c :: rest, cur => splitSlashAux rest (c :: cur)

/-- JavaScript `s.split('/')`: every `/` separates, empty pieces are kept,
and the empty string yields `[""]`. -/
def splitSlash (s : String) : List String :=
  splitSlashAux s.data []

/-- JavaScript `parts.join('/')`. -/
def joinSlash : List String → String
  | [] => ""
  | [s] => s
  | s :: rest => s ++ "/" ++ joinSlash rest

/-- `parseString(buf, offset, length)` of the source: slice out the field,
truncate at the first null byte (or at `length` if none), decode as text. -/
def parseString (buf : List Nat) (off len : Nat) : String :=
  let bytes := (buf.drop off).take len
  let stop := match bytes.findIdx? (fun b => b == 0) with
    | some i => i
    | none => len
  String.mk ((bytes.take stop).map (fun b => Char.ofNat b))

/-- Octal digit test used by the model of `Number.parseInt(str, 8)`. -/
def isOctDigitChar (c : Char) : Bool := '0' ≤ c && c ≤ '7'

/-- Model of JavaScript `Number.parseInt(s, 8)`: skip leading whitespace,
accept an optional sign, then read the longest run of octal digits; `none`
models the `NaN` result when no digit is found. -/
def jsParseIntOct (s : String) : Option Int :=
  let cs := s.data.dropWhile isWsChar
  let sign : Int := match cs.head? with
    | some '-' => -1
    | _ => 1
  let digitsPart := match cs.head? with
    | some '-' => cs.tail
    | some '+' => cs.tail
    | _ => cs
  let ds := digitsPart.takeWhile isOctDigitChar
  if ds.isEmpty then none
  else some (sign * ds.foldl (fun acc c => acc * 8 + ((c.toNat : Int) - 48)) 0)

/-- `parseOctal(buf, offset, length)` of the source: extract the field as a
string, trim it, parse base-8; an empty field or a `NaN` parse yields `0`. -/
def parseOctal (buf : List Nat) (off len : Nat) : Int :=
  if jsTrim (parseString buf off len) = "" then 0
  else
    match jsParseIntOct (jsTrim (parseString buf off len)) with
    | none => 0
    | some v => v

/-- Type-flag classification of `parseHeader`: `'5'` directory, `'2'`
symlink, `'0'` or the legacy NUL byte file, anything else file (fallback). -/
def entryTypeOf (c : Char) : EntryType :=
  if c = '5' then EntryType.directory
  else if c = '2' then EntryType.symlink
  else if c = '0' ∨ c = Char.ofNat 0 then EntryType.file
  else EntryType.file

/-- `parseHeader(block)` of the source.  Field offsets: name 0 (100 bytes),
size 124 (12), typeflag 156 (1), linkname 157 (100), magic 257 (6), and
the 155-byte field at offset 345 that extends the name in front.  `block[156]` out of range gives `undefined`,
which `String.fromCharCode` turns into the NUL character, hence `getD _ 0`. -/
def parseHeader (block : List Nat) : Option TarEntry :=
  if ¬ strStartsWith (parseString block 257 6) "ustar" then none
  else
    some
      { name :=
          if parseString block 345 155 ≠ "" then
            parseString block 345 155 ++ "/" ++ parseString block 0 100
          else parseString block 0 100
        size := parseOctal block 124 12
        type := entryTypeOf (Char.ofNat (block.getD 156 0))
        linkname :=
          if entryTypeOf (Char.ofNat (block.getD 156 0)) = EntryType.symlink then
            some (parseString block 157 100)
          else none }

/-- One 64-bit little-endian word of the `BigUint64Array` view used by
`isZeroBlock` (the slice that produced `block` always starts a fresh
buffer, so the view is aligned and holds `⌊len / 8⌋` words). -/
def word64 (block : List Nat) (i : Nat) : Nat :=
  ∑ j ∈ Finset.range 8, block.getD (8 * i + j) 0 * 256 ^ j

/-- `isZeroBlock(block)` of the source: check eight bytes at a time through
the 64-bit word view, then a tail loop over the `len % 8` remaining bytes. -/
def isZeroBlock (block : List Nat) : Bool :=
  ((List.range (block.length / 8)).all fun i => word64 block i == 0) &&
  ((List.range' (block.length - block.length % 8) (block.length % 8)).all
    fun i => block.getD i 0 == 0)

/-- `stripComponents(path, count)` of the source: split on `/`, drop the
first `count` components; if everything is stripped return `""`. -/
def stripComponents (path : String) (count : Nat) : String :=
  let parts := splitSlash path
  if parts.length ≤ count then ""
  else joinSlash (parts.drop count)

/-- `path.posix.isAbsolute`: nonempty and the first code unit is `/`. -/
def jsIsAbsolute (p : String) : Bool := p.data.head? == some '/'

/-- Node's trailing-separator test `path.charCodeAt(path.length - 1)`. -/
def endsWithSlash (p : String) : Bool := p.data.getLast? == some '/'

/-- One step of Node's `normalizeString` component scan: `""` and `"."`
segments are dropped; `".."` pops the previous segment unless there is none
or it is itself `".."`, in which case it is kept only when segments may
climb above the root (`allowAbove`); other segments are appended. -/
def normSeg (allowAbove : Bool) (acc : List String) (seg : String) : List String :=
  if seg = "" ∨ seg = "." then acc
  else if seg = ".." then
    if acc ≠ [] ∧ acc.getLast? ≠ some ".." then acc.dropLast
    else if allowAbove then acc ++ [".."] else acc
  else acc ++ [seg]

/-- Node's `normalizeString(p, allowAboveRoot, '/')`: resolve `.` and `..`
segments of a `/`-separated path. -/
def normalizeString (p : String) (allowAbove : Bool) : String :=
  joinSlash ((splitSlash p).foldl (normSeg allowAbove) [])

/-- `path.posix.normalize(p)`. -/
def jsNormalize (p : String) : String :=
  if p = "" then "."
  else
    let core := normalizeString p (!(jsIsAbsolute p))
    if core = "" then
      if jsIsAbsolute p then "/" else if endsWithSlash p then "./" else "."
    else
      let core2 := if endsWithSlash p then core ++ "/" else core
      if jsIsAbsolute p then "/" ++ core2 else core2

/-- `path.posix.resolve(p)` with one argument; `cwd` stands for
`process.cwd()`, consulted only when `p` is relative. -/
def jsResolve (cwd p : String) : String :=
  if jsIsAbsolute p then
    let core := normalizeString p false
    if core = "" then "/" else "/" ++ core
  else
    let comb := cwd ++ "/" ++ p
    if jsIsAbsolute comb then
      let core := normalizeString comb false
      if core = "" then "/" else "/" ++ core
    else
      let core := normalizeString comb true
      if core = "" then "." else core

/-- `path.posix.join(a, b)`: drop empty parts, join with `/`, normalize;
with nothing left the result is `"."`. -/
def jsJoin (a b : String) : String :=
  if a = "" ∧ b = "" then "."
  else if a = "" then jsNormalize b
  else if b = "" then jsNormalize a
  else jsNormalize (a ++ "/" ++ b)

/-- `path.posix.dirname(p)`: ignore trailing slashes, cut before the last
path segment; no slash left means `"."` (or `"/"` for absolute paths). -/
def jsDirname (p : String) : String :=
  if p = "" then "."
  else
    let cs := p.data
    let hasRoot := cs.head? = some '/'
    let rest := (cs.drop 1).reverse
    let r1 := rest.dropWhile (fun c => c = '/')
    let r2 := r1.dropWhile (fun c => c ≠ '/')
    if r2.isEmpty then (if hasRoot then "/" else ".")
    else if hasRoot ∧ r2.length = 1 then "//"
    else String.mk (cs.take r2.length)

/-- `isPathSafe(targetPath, destDir)` of the source: resolve both paths to
absolute normalized form and accept iff the target equals the destination
or extends it past a `/`. -/
def isPathSafe (cwd targetPath destDir : String) : Bool :=
  strStartsWith (jsResolve cwd (jsNormalize targetPath))
      (jsResolve cwd (jsNormalize destDir) ++ "/")
  || (jsResolve cwd (jsNormalize targetPath)) == (jsResolve cwd (jsNormalize destDir))

/-- `Math.ceil(size / 512) * 512`, the block-aligned payload skip of the
scan loop, as exact integer arithmetic (`⌈a / b⌉ = -⌊-a / b⌋`). -/
def ceilPad (size : Int) : Int :=
  -((-size).ediv 512) * 512

/-- Entry after the in-place name mutation
`entry.name = stripComponents(entry.name, options.strip)` (performed only
when `options.strip` is truthy); stripping rewrites only the name. -/
def effEntry (opts : ExtractOptions) (e0 : TarEntry) : TarEntry :=
  if 0 < opts.strip then { e0 with name := stripComponents e0.name opts.strip } else e0

/-- Condition `options.filter && !options.filter(entry)` of the source. -/
def filterRejects (opts : ExtractOptions) (e : TarEntry) : Bool :=
  match opts.filter with
  | some f => !(f e)
  | none => false

/-- Outcome of one iteration of the scan loop: the cursor after the
iteration, the filesystem actions performed, the names pushed onto
`extractedFiles`, and whether the iteration hit the end-of-archive `break`. -/
structure LoopOut where
  offset : Int
  actions : List FsAction
  names : List String
  done : Bool
  deriving DecidableEq, Repr

/-- Body of the scan loop after the header at cursor `offset` has been
parsed successfully and the cursor moved past it to `off1 = offset + 512`:
strip/filter/absolute/Zip-Slip policy gates in source order, then dispatch
on the entry type.  Every exit advances the cursor past the block-aligned
payload.  `stripComponents` never changes `size`, so the skip amount is
written `ceilPad e0.size` throughout. -/
def handleEntry (cwd : String) (tarData : List Nat) (destDir : String)
    (opts : ExtractOptions) (off1 : Int) (e0 : TarEntry) : LoopOut :=
  if 0 < opts.strip ∧ stripComponents e0.name opts.strip = "" then
    ⟨off1 + ceilPad e0.size, [], [], false⟩
  else if filterRejects opts (effEntry opts e0) then
    ⟨off1 + ceilPad e0.size, [], [], false⟩
  else if jsIsAbsolute (effEntry opts e0).name then
    ⟨off1 + ceilPad e0.size, [], [], false⟩
  else if !(isPathSafe cwd (jsJoin destDir (effEntry opts e0).name) destDir) then
    ⟨off1 + ceilPad e0.size, [], [], false⟩
  else
    match e0.type with
    | EntryType.directory =>
        ⟨off1 + ceilPad e0.size,
         [FsAction.makeDir (jsJoin destDir (effEntry opts e0).name)],
         [(effEntry opts e0).name], false⟩
    | EntryType.file =>
        ⟨off1 + ceilPad e0.size,
         [FsAction.ensureDir (jsDirname (jsJoin destDir (effEntry opts e0).name)),
          FsAction.writeData (jsJoin destDir (effEntry opts e0).name)
            (jsSlice tarData off1 (off1 + e0.size))],
         [(effEntry opts e0).name], false⟩
    | EntryType.symlink =>
        ⟨off1 + ceilPad e0.size, [], [], false⟩

/-- One iteration of `while (offset < tarData.length)`: read the 512-byte
header block at `offset`; terminate on two consecutive zero blocks (a
missing second block counts as zero); skip one block on an invalid header;
otherwise handle the parsed entry. -/
def extractStep (cwd : String) (tarData : List Nat) (destDir : String)
    (opts : ExtractOptions) (offset : Int) : LoopOut :=
  if isZeroBlock (jsSlice tarData offset (offset + 512)) &&
      ((jsSlice tarData (offset + 512) (offset + 1024)).isEmpty ||
        isZeroBlock (jsSlice tarData (offset + 512) (offset + 1024))) then
    ⟨offset, [], [], true⟩
  else
    match parseHeader (jsSlice tarData offset (offset + 512)) with
    | none => ⟨offset + 512, [], [], false⟩
    | some e0 => handleEntry cwd tarData destDir opts (offset + 512) e0

/-- The scan loop, indexed by fuel: `none` means the given number of
iterations did not finish the loop (the source has no such bound; fuel
makes the model total while keeping every terminating run representable). -/
def extractLoop (cwd : String) (tarData : List Nat) (destDir : String)
    (opts : ExtractOptions) : Nat → Int → Option (List FsAction × List String)
  | 0, _ => none
  | fuel + 1, offset =>
    if offset < (tarData.length : Int) then
      let st := extractStep cwd tarData destDir opts offset
      if st.done then some ([], [])
      else
        match extractLoop cwd tarData destDir opts fuel st.offset with
        | none => none
        | some r => some (st.actions ++ r.1, st.names ++ r.2)
    else some ([], [])

/-- `extractTarGz(tarGzPath, destDir, options)` after the external gzip
step: `tarData` is the decompressed buffer, the destination directory is
ensured first, then the scan loop runs from cursor `0`; the result pairs
the filesystem actions with the returned `extractedFiles` list. -/
def extractTarGz (cwd : String) (tarData : List Nat) (destDir : String)
    (opts : ExtractOptions) (fuel : Nat) : Option (List FsAction × List String) :=
  match extractLoop cwd tarData destDir opts fuel 0 with
  | none => none
  | some r => some (FsAction.ensureDir destDir :: r.1, r.2)

/-- Builder for concrete 512-byte USTAR header blocks used in the test
inputs below: a name field, a size field, a typeflag byte, a linkname
field, and the magic `ustar` at offset 257; every other byte is zero. -/
def mkHeader (nameBytes sizeBytes : List Nat) (flag : Nat) (link : List Nat) : List Nat :=
  (List.range 512).map fun i =>
    if i < nameBytes.length then nameBytes.getD i 0
    else if 124 ≤ i ∧ i - 124 < sizeBytes.length then sizeBytes.getD (i - 124) 0
    else if i = 156 then flag
    else if 157 ≤ i ∧ i - 157 < link.length then link.getD (i - 157) 0
    else if i = 257 then 117 else if i = 258 then 115 else if i = 259 then 116
    else if i = 260 then 97 else if i = 261 then 114
    else 0

/-- Block that is all zeros except for a valid `ustar` magic: both the name
field and the field at offset 345 are empty. -/
def magicOnlyBlock : List Nat := mkHeader [] [] 0 []

/-- Single-block archive claiming a file `"a"` of size 1 whose payload is
missing (the buffer ends right after the header). -/
def truncBuf : List Nat := mkHeader [97] [49] 48 []

/-- Single-block archive with file `"x"` and size field `"-1001"`; the
octal parse yields −513, so the payload skip is −512 and the cursor
returns to the start of the same header. -/
def negSizeBuf : List Nat := mkHeader [120] [45, 49, 48, 48, 49] 48 []

/-- Single-block archive with an empty file `"w"`. -/
def demoBuf : List Nat := mkHeader [119] [48] 48 []

/-- Single-block archive with a symlink `"s"` whose target is `"t"`. -/
def symBuf : List Nat := mkHeader [115] [48] 50 [116]

/-- Single-block archive with a file whose name `"/e"` is absolute. -/
def absBuf : List Nat := mkHeader [47, 101] [48] 48 []

/-- Two-block archive: file `"f"` of size 3 with payload `"abc"` followed
by zero padding. -/
def fullBuf : List Nat := mkHeader [102] [51] 48 [] ++ ([97, 98, 99] ++ List.replicate 509 0)

/-! ## Helper lemmas -/

theorem getD_eq_of_lt (l : List Nat) (i : Nat) (h : i < l.length) : l.getD i 0 = l[i] := by
  simp [List.getD_eq_getElem?_getD, List.getElem?_eq_getElem h]

theorem getD_eq_zero_of_ge (l : List Nat) (i : Nat) (h : l.length ≤ i) : l.getD i 0 = 0 := by
  simp [List.getD_eq_getElem?_getD, List.getElem?_eq_none h]

theorem word64_eq_zero_iff (block : List Nat) (i : Nat) :
    word64 block i = 0 ↔ ∀ j < 8, block.getD (8 * i + j) 0 = 0 := by
  unfold word64
  rw [Finset.sum_eq_zero_iff]
  constructor
  · intro h j hj
    have h' := h j (Finset.mem_range.mpr hj)
    rcases Nat.mul_eq_zero.mp h' with h0 | h0
    · exact h0
    · exact absurd h0 (pow_ne_zero _ (by norm_num))
  · intro h j hj
    rw [h j (Finset.mem_range.mp hj), zero_mul]

/-- The word-chunked zero test of the source is equivalent to the naive
byte-by-byte scan. -/
theorem isZeroBlock_eq_true_iff (block : List Nat) :
    isZeroBlock block = true ↔ ∀ b ∈ block, b = 0 := by
  unfold isZeroBlock
  rw [Bool.and_eq_true, List.all_eq_true, List.all_eq_true]
  simp only [beq_iff_eq, List.mem_range, List.mem_range'_1]
  constructor
  · rintro ⟨hw, ht⟩ b hb
    obtain ⟨i, hi, rfl⟩ := List.mem_iff_getElem.mp hb
    rw [← getD_eq_of_lt block i hi]
    rcases Nat.lt_or_ge i (block.length - block.length % 8) with hlt | hge
    · have hdm := Nat.div_add_mod block.length 8
      have hq : i / 8 < block.length / 8 := by omega
      have hw' := (word64_eq_zero_iff block (i / 8)).mp (hw (i / 8) hq)
      have h8 := hw' (i % 8) (Nat.mod_lt _ (by norm_num))
      rwa [Nat.div_add_mod i 8] at h8
    · exact ht i ⟨hge, by omega⟩
  · intro h
    constructor
    · intro i hi
      rw [word64_eq_zero_iff]
      intro j hj
      rcases Nat.lt_or_ge (8 * i + j) block.length with hidx | hidx
      · rw [getD_eq_of_lt block _ hidx]
        exact h _ (List.getElem_mem hidx)
      · exact getD_eq_zero_of_ge block _ hidx
    · intro i hri
      rcases Nat.lt_or_ge i block.length with hidx | hidx
      · rw [getD_eq_of_lt block _ hidx]
        exact h _ (List.getElem_mem hidx)
      · exact getD_eq_zero_of_ge block _ hidx

/-- A buffer of zero bytes always decodes to the empty string. -/
theorem parseString_of_all_zero (buf : List Nat) (off len : Nat)
    (h : ∀ b ∈ buf, b = 0) : parseString buf off len = "" := by
  have hsub : ∀ b ∈ (buf.drop off).take len, b = 0 := by
    intro b hb
    exact h b (List.mem_of_mem_drop (List.mem_of_mem_take hb))
  simp only [parseString]
  cases hbytes : (buf.drop off).take len with
  | nil =>
    rw [List.take_nil]
    rfl
  | cons b rest =>
    have hb0 : b = 0 := hsub b (by rw [hbytes]; exact List.mem_cons_self b rest)
    subst hb0
    rfl

/-- A block that parses as a header cannot be all-zero (its magic field
would be empty). -/
theorem isZeroBlock_eq_false_of_parse (block : List Nat) (e : TarEntry)
    (h : parseHeader block = some e) : isZeroBlock block = false := by
  by_contra hcontra
  have hz : isZeroBlock block = true := by
    cases hb : isZeroBlock block
    · exact absurd hb hcontra
    · rfl
  have hall := (isZeroBlock_eq_true_iff block).mp hz
  have hmagic : parseString block 257 6 = "" := parseString_of_all_zero block 257 6 hall
  unfold parseHeader at h
  rw [hmagic] at h
  simp [strStartsWith] at h

theorem entryTypeOf_eq_directory_iff (c : Char) :
    entryTypeOf c = EntryType.directory ↔ c = '5' := by
  unfold entryTypeOf
  split_ifs with k1 k2 k3
  · exact iff_of_true rfl k1
  · exact iff_of_false (by simp) k1
  · exact iff_of_false (by simp) k1
  · exact iff_of_false (by simp) k1

theorem entryTypeOf_eq_symlink_iff (c : Char) :
    entryTypeOf c = EntryType.symlink ↔ c = '2' := by
  unfold entryTypeOf
  split_ifs with k1 k2 k3
  · refine iff_of_false (by simp) ?_
    rw [k1]
    decide
  · exact iff_of_true rfl k2
  · exact iff_of_false (by simp) k2
  · exact iff_of_false (by simp) k2

theorem entryTypeOf_eq_file (c : Char) (h : c ≠ '5' ∧ c ≠ '2') :
    entryTypeOf c = EntryType.file := by
  unfold entryTypeOf
  split_ifs with k1 k2 k3
  · exact absurd k1 h.1
  · exact absurd k2 h.2
  · rfl
  · rfl

theorem effEntry_size (opts : ExtractOptions) (e0 : TarEntry) :
    (effEntry opts e0).size = e0.size := by
  unfold effEntry
  split <;> rfl

theorem effEntry_type (opts : ExtractOptions) (e0 : TarEntry) :
    (effEntry opts e0).type = e0.type := by
  unfold effEntry
  split <;> rfl

theorem handleEntry_done (cwd : String) (tarData : List Nat) (destDir : String)
    (opts : ExtractOptions) (off1 : Int) (e0 : TarEntry) :
    (handleEntry cwd tarData destDir opts off1 e0).done = false := by
  obtain ⟨n0, s0, ty, l0⟩ := e0
  unfold handleEntry
  cases ty <;> split_ifs <;> rfl

theorem handleEntry_offset (cwd : String) (tarData : List Nat) (destDir : String)
    (opts : ExtractOptions) (off1 : Int) (e0 : TarEntry) :
    (handleEntry cwd tarData destDir opts off1 e0).offset = off1 + ceilPad e0.size := by
  obtain ⟨n0, s0, ty, l0⟩ := e0
  unfold handleEntry
  cases ty <;> split_ifs <;> rfl

theorem extractStep_eq_handleEntry (cwd : String) (tarData : List Nat) (destDir : String)
    (opts : ExtractOptions) (offset : Int) (e0 : TarEntry)
    (hparse : parseHeader (jsSlice tarData offset (offset + 512)) = some e0) :
    extractStep cwd tarData destDir opts offset =
      handleEntry cwd tarData destDir opts (offset + 512) e0 := by
  have hz := isZeroBlock_eq_false_of_parse _ _ hparse
  unfold extractStep
  rw [hz, hparse]
  simp

/-- Per-iteration safety invariant: every created directory and written
file path passes `isPathSafe`, and every recorded name is relative, joins
to a safe path, and corresponds to an action in the same iteration. -/
theorem handleEntry_inv (cwd : String) (tarData : List Nat) (destDir : String)
    (opts : ExtractOptions) (off1 : Int) (e0 : TarEntry) :
    (∀ p, FsAction.makeDir p ∈ (handleEntry cwd tarData destDir opts off1 e0).actions →
        isPathSafe cwd p destDir = true) ∧
    (∀ p dat, FsAction.writeData p dat ∈ (handleEntry cwd tarData destDir opts off1 e0).actions →
        isPathSafe cwd p destDir = true) ∧
    (∀ n ∈ (handleEntry cwd tarData destDir opts off1 e0).names,
        jsIsAbsolute n = false ∧ isPathSafe cwd (jsJoin destDir n) destDir = true ∧
        (FsAction.makeDir (jsJoin destDir n) ∈ (handleEntry cwd tarData destDir opts off1 e0).actions ∨
         ∃ dat, FsAction.writeData (jsJoin destDir n) dat ∈
            (handleEntry cwd tarData destDir opts off1 e0).actions)) := by
  obtain ⟨n0, s0, ty, l0⟩ := e0
  unfold handleEntry
  split_ifs with hA hB hC hD
  · exact ⟨by simp, by simp, by simp⟩
  · exact ⟨by simp, by simp, by simp⟩
  · exact ⟨by simp, by simp, by simp⟩
  · exact ⟨by simp, by simp, by simp⟩
  · have hsafe :
        isPathSafe cwd (jsJoin destDir (effEntry opts ⟨n0, s0, ty, l0⟩).name) destDir = true := by
      simpa [Bool.not_eq_true'] using hD
    have habs : jsIsAbsolute (effEntry opts ⟨n0, s0, ty, l0⟩).name = false := by
      simpa [Bool.not_eq_true] using hC
    cases ty
    · -- file
      refine ⟨?_, ?_, ?_⟩
      · intro p hp
        simp at hp
      · intro p dat hp
        simp only [List.mem_cons, List.mem_singleton, List.not_mem_nil, or_false] at hp
        rcases hp with hp | hp
        · exact absurd hp (by simp)
        · obtain ⟨rfl, -⟩ : p = jsJoin destDir (effEntry opts ⟨n0, s0, EntryType.file, l0⟩).name ∧
              dat = jsSlice tarData off1 (off1 + s0) := by
            simpa using hp
          exact hsafe
      · intro n hn
        simp only [List.mem_singleton] at hn
        subst hn
        exact ⟨habs, hsafe, Or.inr ⟨jsSlice tarData off1 (off1 + s0), by simp⟩⟩
    · -- directory
      refine ⟨?_, ?_, ?_⟩
      · intro p hp
        obtain rfl : p = jsJoin destDir (effEntry opts ⟨n0, s0, EntryType.directory, l0⟩).name := by
          simpa using hp
        exact hsafe
      · intro p dat hp
        simp at hp
      · intro n hn
        simp only [List.mem_singleton] at hn
        subst hn
        exact ⟨habs, hsafe, Or.inl (by simp)⟩
    · -- symlink
      exact ⟨by simp, by simp, by simp⟩

theorem extractStep_inv (cwd : String) (tarData : List Nat) (destDir : String)
    (opts : ExtractOptions) (offset : Int) :
    (∀ p, FsAction.makeDir p ∈ (extractStep cwd tarData destDir opts offset).actions →
        isPathSafe cwd p destDir = true) ∧
    (∀ p dat, FsAction.writeData p dat ∈ (extractStep cwd tarData destDir opts offset).actions →
        isPathSafe cwd p destDir = true) ∧
    (∀ n ∈ (extractStep cwd tarData destDir opts offset).names,
        jsIsAbsolute n = false ∧ isPathSafe cwd (jsJoin destDir n) destDir = true ∧
        (FsAction.makeDir (jsJoin destDir n) ∈ (extractStep cwd tarData destDir opts offset).actions ∨
         ∃ dat, FsAction.writeData (jsJoin destDir n) dat ∈
            (extractStep cwd tarData destDir opts offset).actions)) := by
  unfold extractStep
  split
  · simp
  · split
    · simp
    · exact handleEntry_inv cwd tarData destDir opts (offset + 512) _

/-- Loop-level safety invariant, by induction on the fuel. -/
theorem extractLoop_inv (cwd : String) (tarData : List Nat) (destDir : String)
    (opts : ExtractOptions) :
    ∀ (fuel : Nat) (offset : Int) (acts : List FsAction) (ns : List String),
      extractLoop cwd tarData destDir opts fuel offset = some (acts, ns) →
      (∀ p, FsAction.makeDir p ∈ acts → isPathSafe cwd p destDir = true) ∧
      (∀ p dat, FsAction.writeData p dat ∈ acts → isPathSafe cwd p destDir = true) ∧
      (∀ n ∈ ns, jsIsAbsolute n = false ∧ isPathSafe cwd (jsJoin destDir n) destDir = true ∧
        (FsAction.makeDir (jsJoin destDir n) ∈ acts ∨
         ∃ dat, FsAction.writeData (jsJoin destDir n) dat ∈ acts)) := by
  intro fuel
  induction fuel with
  | zero =>
    intro offset acts ns h
    simp [extractLoop] at h
  | succ m ih =>
    intro offset acts ns h
    simp only [extractLoop] at h
    split at h
    · split at h
      · obtain ⟨rfl, rfl⟩ : ([] : List FsAction) = acts ∧ ([] : List String) = ns := by
          simpa using h
        simp
      · split at h
        · exact absurd h (by simp)
        · rename_i r hr
          obtain ⟨rfl, rfl⟩ :
              (extractStep cwd tarData destDir opts offset).actions ++ r.1 = acts ∧
              (extractStep cwd tarData destDir opts offset).names ++ r.2 = ns := by
            simpa using h
          obtain ⟨hs1, hs2, hs3⟩ := extractStep_inv cwd tarData destDir opts offset
          obtain ⟨hr1, hr2, hr3⟩ := ih _ r.1 r.2 (by rw [hr])
          refine ⟨?_, ?_, ?_⟩
          · intro p hp
            rcases List.mem_append.mp hp with hp | hp
            · exact hs1 p hp
            · exact hr1 p hp
          · intro p dat hp
            rcases List.mem_append.mp hp with hp | hp
            · exact hs2 p dat hp
            · exact hr2 p dat hp
          · intro n hn
            rcases List.mem_append.mp hn with hn | hn
            · obtain ⟨ha, hb, hc⟩ := hs3 n hn
              refine ⟨ha, hb, ?_⟩
              rcases hc with hc | ⟨dat, hc⟩
              · exact Or.inl (List.mem_append_left _ hc)
              · exact Or.inr ⟨dat, List.mem_append_left _ hc⟩
            · obtain ⟨ha, hb, hc⟩ := hr3 n hn
              refine ⟨ha, hb, ?_⟩
              rcases hc with hc | ⟨dat, hc⟩
              · exact Or.inl (List.mem_append_right _ hc)
              · exact Or.inr ⟨dat, List.mem_append_right _ hc⟩
    · obtain ⟨rfl, rfl⟩ : ([] : List FsAction) = acts ∧ ([] : List String) = ns := by
        simpa using h
      simp

/-- A JavaScript slice whose bounds are non-negative and lie inside the
buffer is the ordinary drop/take slice, of exactly the requested length. -/
theorem jsSlice_nat (l : List Nat) (b k : Nat) (h : b + k ≤ l.length) :
    jsSlice l (b : Int) ((b : Int) + (k : Int)) = (l.drop b).take k ∧
    (jsSlice l (b : Int) ((b : Int) + (k : Int))).length = k := by
  have hb : jsIndex l.length (b : Int) = b := by
    unfold jsIndex
    rw [if_neg (by omega)]
    simp only [Int.toNat_ofNat]
    omega
  have he : jsIndex l.length ((b : Int) + (k : Int)) = b + k := by
    unfold jsIndex
    rw [if_neg (by omega)]
    have hcast : ((b : Int) + (k : Int)).toNat = b + k := by omega
    rw [hcast]
    omega
  have hmain : jsSlice l (b : Int) ((b : Int) + (k : Int)) = (l.drop b).take k := by
    unfold jsSlice
    rw [hb, he, List.drop_take]
    congr 1
    omega
  refine ⟨hmain, ?_⟩
  rw [hmain, List.length_take, List.length_drop]
  omega

/-! ## Claim theorems -/

/-- C4: the extraction scan stops exactly when the current 512-byte block
is zero (the word-chunked `isZeroBlock` being equivalent to the naive
byte-by-byte scan) and the following block is all-zero or absent; a single
zero block followed by a non-zero block does not terminate the scan. -/
theorem c4_end_of_archive (cwd : String) (tarData : List Nat) (destDir : String)
    (opts : ExtractOptions) :
    (∀ block : List Nat, isZeroBlock block = true ↔ ∀ b ∈ block, b = 0) ∧
    (∀ offset : Int,
      ((extractStep cwd tarData destDir opts offset).done = true ↔
        ((∀ b ∈ jsSlice tarData offset (offset + 512), b = 0) ∧
          (jsSlice tarData (offset + 512) (offset + 1024) = [] ∨
            ∀ b ∈ jsSlice tarData (offset + 512) (offset + 1024), b = 0)))) := by
  refine ⟨isZeroBlock_eq_true_iff, ?_⟩
  intro offset
  by_cases hz :
      (isZeroBlock (jsSlice tarData offset (offset + 512)) &&
        ((jsSlice tarData (offset + 512) (offset + 1024)).isEmpty ||
          isZeroBlock (jsSlice tarData (offset + 512) (offset + 1024)))) = true
  · unfold extractStep
    rw [if_pos hz]
    rw [Bool.and_eq_true, Bool.or_eq_true] at hz
    constructor
    · intro _
      refine ⟨(isZeroBlock_eq_true_iff _).mp hz.1, ?_⟩
      rcases hz.2 with h2 | h2
      · exact Or.inl (List.isEmpty_iff.mp h2)
      · exact Or.inr ((isZeroBlock_eq_true_iff _).mp h2)
    · intro _
      rfl
  · unfold extractStep
    rw [if_neg hz]
    have hdone :
        (match parseHeader (jsSlice tarData offset (offset + 512)) with
          | none => (⟨offset + 512, [], [], false⟩ : LoopOut)
          | some e0 => handleEntry cwd tarData destDir opts (offset + 512) e0).done = false := by
      cases hp : parseHeader (jsSlice tarData offset (offset + 512)) with
      | none => rfl
      | some e0 => exact handleEntry_done cwd tarData destDir opts (offset + 512) e0
    rw [hdone]
    constructor
    · intro hfalse
      exact absurd hfalse (by simp)
    · rintro ⟨h1, h2⟩
      exfalso
      apply hz
      rw [Bool.and_eq_true, Bool.or_eq_true]
      refine ⟨(isZeroBlock_eq_true_iff _).mpr h1, ?_⟩
      rcases h2 with h2 | h2
      · exact Or.inl (List.isEmpty_iff.mpr h2)
      · exact Or.inr ((isZeroBlock_eq_true_iff _).mpr h2)

/-- C4 witness: on the empty buffer the header slice is empty (hence zero)
and the next block is absent, so the scan terminates immediately. -/
theorem c4_end_of_archive_witness :
    (extractStep "/" ([] : List Nat) "/d" ⟨0, none⟩ 0).done = true :=
  ((c4_end_of_archive "/" [] "/d" ⟨0, none⟩).2 0).mpr
    ⟨by decide, Or.inl (by decide)⟩

/-- C5: the scan cursor stays 512-aligned — an invalid header advances it
by exactly 512, a parsed entry by exactly `512 + ceil(size/512)*512`, and
any 512-divisible cursor stays 512-divisible (the loop starts it at 0 by
definition of `extractTarGz`). -/
theorem c5_cursor_alignment (cwd : String) (tarData : List Nat) (destDir : String)
    (opts : ExtractOptions) (offset : Int) :
    ((extractStep cwd tarData destDir opts offset).done = false →
      parseHeader (jsSlice tarData offset (offset + 512)) = none →
      (extractStep cwd tarData destDir opts offset).offset = offset + 512) ∧
    ((extractStep cwd tarData destDir opts offset).done = false →
      ∀ e0 : TarEntry, parseHeader (jsSlice tarData offset (offset + 512)) = some e0 →
      (extractStep cwd tarData destDir opts offset).offset = offset + 512 + ceilPad e0.size) ∧
    ((512 : Int) ∣ offset → (512 : Int) ∣ (extractStep cwd tarData destDir opts offset).offset) := by
  refine ⟨?_, ?_, ?_⟩
  · intro hdone hnone
    by_cases hz :
        (isZeroBlock (jsSlice tarData offset (offset + 512)) &&
          ((jsSlice tarData (offset + 512) (offset + 1024)).isEmpty ||
            isZeroBlock (jsSlice tarData (offset + 512) (offset + 1024)))) = true
    · unfold extractStep at hdone
      rw [if_pos hz] at hdone
      exact absurd hdone (by simp)
    · unfold extractStep
      rw [if_neg hz, hnone]
  · intro _ e0 hparse
    rw [extractStep_eq_handleEntry cwd tarData destDir opts offset e0 hparse]
    rw [handleEntry_offset]
  · intro hdvd
    by_cases hz :
        (isZeroBlock (jsSlice tarData offset (offset + 512)) &&
          ((jsSlice tarData (offset + 512) (offset + 1024)).isEmpty ||
            isZeroBlock (jsSlice tarData (offset + 512) (offset + 1024)))) = true
    · unfold extractStep
      rw [if_pos hz]
      exact hdvd
    · unfold extractStep
      rw [if_neg hz]
      cases hp : parseHeader (jsSlice tarData offset (offset + 512)) with
      | none =>
        exact dvd_add hdvd ⟨1, by ring⟩
      | some e0 =>
        rw [handleEntry_offset]
        exact dvd_add (dvd_add hdvd ⟨1, by ring⟩) ⟨-((-e0.size).ediv 512), by unfold ceilPad; ring⟩

/-- C5 witness: on a one-entry archive the cursor moves from 0 to
`512 + ceil(0/512)*512` and stays divisible by 512. -/
theorem c5_cursor_alignment_witness :
    (extractStep "/" demoBuf "/d" ⟨0, none⟩ 0).offset = 0 + 512 + ceilPad (0 : Int) ∧
    (512 : Int) ∣ (extractStep "/" demoBuf "/d" ⟨0, none⟩ 0).offset :=
  ⟨(c5_cursor_alignment "/" demoBuf "/d" ⟨0, none⟩ 0).2.1 (by decide)
      ⟨"w", 0, EntryType.file, none⟩ (by decide),
    (c5_cursor_alignment "/" demoBuf "/d" ⟨0, none⟩ 0).2.2 (dvd_zero 512)⟩

/-- C7: the octal field decoder is total (it is a plain function into
`Int` with no failure path) and returns 0 on any empty or unparseable
field after trimming. -/
theorem c7_parse_octal_default (buf : List Nat) (off len : Nat)
    (h : jsTrim (parseString buf off len) = "" ∨
      jsParseIntOct (jsTrim (parseString buf off len)) = none) :
    parseOctal buf off len = 0 := by
  unfold parseOctal
  rcases h with h | h
  · rw [if_pos h]
  · rw [h]
    simp

/-- C7 witness: the non-octal field `"ab"` parses to 0. -/
theorem c7_parse_octal_default_witness :
    jsParseIntOct (jsTrim (parseString [97, 98] 0 2)) = none ∧ parseOctal [97, 98] 0 2 = 0 :=
  ⟨by decide, c7_parse_octal_default [97, 98] 0 2 (Or.inr (by decide))⟩

/-- C8: a policy-rejected entry (strip-exhausted name, filtered out,
absolute, or path-unsafe) produces no filesystem action and no recorded
name, and the cursor still advances past the header and the block-aligned
payload. -/
theorem c8_rejected_entry_skipped (cwd : String) (tarData : List Nat) (destDir : String)
    (opts : ExtractOptions) (offset : Int) (e0 : TarEntry)
    (hparse : parseHeader (jsSlice tarData offset (offset + 512)) = some e0)
    (hrej : (0 < opts.strip ∧ stripComponents e0.name opts.strip = "") ∨
      filterRejects opts (effEntry opts e0) = true ∨
      jsIsAbsolute (effEntry opts e0).name = true ∨
      isPathSafe cwd (jsJoin destDir (effEntry opts e0).name) destDir = false) :
    (extractStep cwd tarData destDir opts offset).actions = [] ∧
    (extractStep cwd tarData destDir opts offset).names = [] ∧
    (extractStep cwd tarData destDir opts offset).offset = offset + 512 + ceilPad e0.size ∧
    (extractStep cwd tarData destDir opts offset).done = false := by
  rw [extractStep_eq_handleEntry cwd tarData destDir opts offset e0 hparse]
  unfold handleEntry
  split_ifs with hA hB hC hD
  · exact ⟨rfl, rfl, rfl, rfl⟩
  · exact ⟨rfl, rfl, rfl, rfl⟩
  · exact ⟨rfl, rfl, rfl, rfl⟩
  · exact ⟨rfl, rfl, rfl, rfl⟩
  · exfalso
    rcases hrej with h | h | h | h
    · exact hA h
    · exact hB h
    · exact hC h
    · simp [h] at hD

/-- C9: a symlink entry performs no filesystem action and records no name
(whatever the policy gates decide), and every name in the returned list
belongs to a directory actually created or a file actually written. -/
theorem c9_symlink_noop (cwd : String) (tarData : List Nat) (destDir : String)
    (opts : ExtractOptions) :
    (∀ (offset : Int) (e0 : TarEntry),
      parseHeader (jsSlice tarData offset (offset + 512)) = some e0 →
      e0.type = EntryType.symlink →
      (extractStep cwd tarData destDir opts offset).actions = [] ∧
      (extractStep cwd tarData destDir opts offset).names = [] ∧
      (extractStep cwd tarData destDir opts offset).offset = offset + 512 + ceilPad e0.size) ∧
    (∀ (fuel : Nat) (r : List FsAction × List String),
      extractTarGz cwd tarData destDir opts fuel = some r →
      ∀ n ∈ r.2, FsAction.makeDir (jsJoin destDir n) ∈ r.1 ∨
        ∃ dat, FsAction.writeData (jsJoin destDir n) dat ∈ r.1) := by
  constructor
  · intro offset e0 hparse htype
    obtain ⟨n0, s0, ty, l0⟩ := e0
    cases htype
    rw [extractStep_eq_handleEntry cwd tarData destDir opts offset _ hparse]
    unfold handleEntry
    split_ifs <;> exact ⟨rfl, rfl, rfl⟩
  · intro fuel r hrun n hn
    unfold extractTarGz at hrun
    cases hl : extractLoop cwd tarData destDir opts fuel 0 with
    | none =>
      rw [hl] at hrun
      exact absurd hrun (by simp)
    | some r0 =>
      rw [hl] at hrun
      obtain rfl : (FsAction.ensureDir destDir :: r0.1, r0.2) = r := by simpa using hrun
      obtain ⟨-, -, h3⟩ := extractLoop_inv cwd tarData destDir opts fuel 0 r0.1 r0.2 (by rw [hl])
      obtain ⟨-, -, hc⟩ := h3 n hn
      rcases hc with hc | ⟨dat, hc⟩
      · exact Or.inl (List.mem_cons_of_mem _ hc)
      · exact Or.inr ⟨dat, List.mem_cons_of_mem _ hc⟩

/-- C9 witness: the symlink `"s" -> "t"` yields no action and no name. -/
theorem c9_symlink_noop_witness :
    parseHeader (jsSlice symBuf 0 (0 + 512)) =
      some ⟨"s", 0, EntryType.symlink, some "t"⟩ ∧
    ((extractStep "/" symBuf "/d" ⟨0, none⟩ 0).actions = [] ∧
      (extractStep "/" symBuf "/d" ⟨0, none⟩ 0).names = [] ∧
      (extractStep "/" symBuf "/d" ⟨0, none⟩ 0).offset = 0 + 512 + ceilPad (0 : Int)) :=
  ⟨by decide,
    (c9_symlink_noop "/" symBuf "/d" ⟨0, none⟩).1 0 ⟨"s", 0, EntryType.symlink, some "t"⟩
      (by decide) rfl⟩

/-- C1: with an absolute destination root, every directory created or file
written by the extraction resolves to the resolved root itself or to a
path extending it past a separator, and every returned name is relative
and joins to such a safe path — so absolute or root-escaping entries are
absent from both the returned list and the recorded filesystem actions. -/
theorem c1_writes_stay_within_root (cwd : String) (tarData : List Nat) (destDir : String)
    (opts : ExtractOptions) (fuel : Nat) (acts : List FsAction) (ns : List String)
    (habs : jsIsAbsolute destDir = true)
    (hrun : extractTarGz cwd tarData destDir opts fuel = some (acts, ns)) :
    (∀ p, (FsAction.makeDir p ∈ acts ∨ ∃ dat, FsAction.writeData p dat ∈ acts) →
      (jsResolve cwd (jsNormalize p) = jsResolve cwd (jsNormalize destDir) ∨
        strStartsWith (jsResolve cwd (jsNormalize p))
          (jsResolve cwd (jsNormalize destDir) ++ "/") = true)) ∧
    (∀ n ∈ ns, jsIsAbsolute n = false ∧
      (jsResolve cwd (jsNormalize (jsJoin destDir n)) = jsResolve cwd (jsNormalize destDir) ∨
        strStartsWith (jsResolve cwd (jsNormalize (jsJoin destDir n)))
          (jsResolve cwd (jsNormalize destDir) ++ "/") = true)) := by
  unfold extractTarGz at hrun
  cases hl : extractLoop cwd tarData destDir opts fuel 0 with
  | none =>
    rw [hl] at hrun
    exact absurd hrun (by simp)
  | some r0 =>
    rw [hl] at hrun
    obtain ⟨rfl, rfl⟩ : FsAction.ensureDir destDir :: r0.1 = acts ∧ r0.2 = ns := by
      simpa using hrun
    obtain ⟨h1, h2, h3⟩ := extractLoop_inv cwd tarData destDir opts fuel 0 r0.1 r0.2 (by rw [hl])
    constructor
    · rintro p (hp | ⟨dat, hp⟩)
      · have hp' : FsAction.makeDir p ∈ r0.1 := by
          rcases List.mem_cons.mp hp with h | h
          · exact absurd h (by simp)
          · exact h
        have hsafe := h1 p hp'
        unfold isPathSafe at hsafe
        rw [Bool.or_eq_true, beq_iff_eq] at hsafe
        rcases hsafe with h | h
        · exact Or.inr h
        · exact Or.inl h
      · have hp' : FsAction.writeData p dat ∈ r0.1 := by
          rcases List.mem_cons.mp hp with h | h
          · exact absurd h (by simp)
          · exact h
        have hsafe := h2 p dat hp'
        unfold isPathSafe at hsafe
        rw [Bool.or_eq_true, beq_iff_eq] at hsafe
        rcases hsafe with h | h
        · exact Or.inr h
        · exact Or.inl h
    · intro n hn
      obtain ⟨ha, hb, -⟩ := h3 n hn
      unfold isPathSafe at hb
      rw [Bool.or_eq_true, beq_iff_eq] at hb
      refine ⟨ha, ?_⟩
      rcases hb with h | h
      · exact Or.inr h
      · exact Or.inl h

/-- C1 witness: extracting the one-file archive under root `"/d"` returns
`["w"]`, whose join resolves strictly inside the root. -/
theorem c1_writes_stay_within_root_witness :
    jsIsAbsolute "/d" = true ∧
    extractTarGz "/" demoBuf "/d" ⟨0, none⟩ 2 =
      some ([FsAction.ensureDir "/d", FsAction.ensureDir "/d",
        FsAction.writeData "/d/w" []], ["w"]) ∧
    (∀ n ∈ ["w"], jsIsAbsolute n = false ∧
      (jsResolve "/" (jsNormalize (jsJoin "/d" n)) = jsResolve "/" (jsNormalize "/d") ∨
        strStartsWith (jsResolve "/" (jsNormalize (jsJoin "/d" n)))
          (jsResolve "/" (jsNormalize "/d") ++ "/") = true)) :=
  ⟨by decide, by decide,
    (c1_writes_stay_within_root "/" demoBuf "/d" ⟨0, none⟩ 2
      [FsAction.ensureDir "/d", FsAction.ensureDir "/d", FsAction.writeData "/d/w" []] ["w"]
      (by decide) (by decide)).2⟩

/-- C8 witness: the entry named `"/e"` is absolute, so nothing is written
and the cursor skips to the next block. -/
theorem c8_rejected_entry_skipped_witness :
    jsIsAbsolute (effEntry ⟨0, none⟩ ⟨"/e", 0, EntryType.file, none⟩).name = true ∧
    (extractStep "/" absBuf "/d" ⟨0, none⟩ 0).actions = [] ∧
    (extractStep "/" absBuf "/d" ⟨0, none⟩ 0).names = [] ∧
    (extractStep "/" absBuf "/d" ⟨0, none⟩ 0).offset = 0 + 512 + ceilPad (0 : Int) ∧
    (extractStep "/" absBuf "/d" ⟨0, none⟩ 0).done = false :=
  ⟨by decide,
    c8_rejected_entry_skipped "/" absBuf "/d" ⟨0, none⟩ 0 ⟨"/e", 0, EntryType.file, none⟩
      (by decide) (Or.inr (Or.inr (Or.inl (by decide))))⟩

/-- On `negSizeBuf` (size field `"-1001"`, parsed to −513) the iteration
at cursor 0 accepts the file, writes an empty slice, and moves the cursor
by `512 + ceil(-513/512)*512 = 0`: back to the same header. -/
theorem negSizeBuf_step :
    extractStep "/" negSizeBuf "/dest" ⟨0, none⟩ 0 =
      ⟨0, [FsAction.ensureDir "/dest", FsAction.writeData "/dest/x" []], ["x"], false⟩ := by
  decide

/-- C10: the scan loop does not terminate on every finite buffer — on the
crafted archive `negSizeBuf` the negative declared size drives the cursor
back to the same header on every iteration, so no amount of fuel finishes
the loop (each iteration also re-writes the same file and re-records its
name, and advances the cursor by 0 rather than by at least 512). -/
theorem c10_nontermination_on_negative_size :
    ∀ fuel : Nat, extractTarGz "/" negSizeBuf "/dest" ⟨0, none⟩ fuel = none := by
  have hlen : (0 : Int) < (negSizeBuf.length : Int) := by decide
  have hloop : ∀ fuel : Nat, extractLoop "/" negSizeBuf "/dest" ⟨0, none⟩ fuel 0 = none := by
    intro fuel
    induction fuel with
    | zero => rfl
    | succ m ih =>
      simp only [extractLoop]
      rw [if_pos hlen, negSizeBuf_step]
      rw [ih]
      rfl
  intro fuel
  unfold extractTarGz
  rw [hloop fuel]

/-- C2 counterexample: the all-zero block with a valid `ustar` magic is
accepted by `parseHeader` yet carries the empty name. -/
theorem c2_counterexample :
    parseHeader magicOnlyBlock =
      some { name := "", size := 0, type := EntryType.file, linkname := none } ∧
    ({ name := "", size := 0, type := EntryType.file, linkname := none } : TarEntry).name = "" :=
  ⟨by decide, rfl⟩

/-- C2 amended: a parsed header's name is non-empty whenever the name
field or the 155-byte field at offset 345 decodes to a non-empty string;
with both fields empty (as in `magicOnlyBlock`) the parsed name is empty. -/
theorem c2_name_nonempty_of_fields (block : List Nat) (e : TarEntry)
    (hparse : parseHeader block = some e)
    (h : parseString block 0 100 ≠ "" ∨ parseString block 345 155 ≠ "") :
    e.name ≠ "" := by
  unfold parseHeader at hparse
  obtain ⟨en, es, et, el⟩ := e
  split at hparse
  · exact absurd hparse (by simp)
  · injection hparse with hmk
    injection hmk with h1 h2 h3 h4
    subst h1
    split_ifs with hp
    · intro hc
      have hlen := congrArg String.length hc
      rw [String.length_append, String.length_append] at hlen
      have hone : ("/" : String).length = 1 := rfl
      rw [hone] at hlen
      simp at hlen
    · rcases h with h | h
      · exact h
      · exact absurd h hp

/-- C2 amended witness: the header of `truncBuf` has name field `"a"`,
and its parsed name is non-empty. -/
theorem c2_name_nonempty_of_fields_witness :
    parseHeader truncBuf = some ⟨"a", 1, EntryType.file, none⟩ ∧
    parseString truncBuf 0 100 ≠ "" ∧
    (⟨"a", 1, EntryType.file, none⟩ : TarEntry).name ≠ "" :=
  ⟨by decide, by decide,
    c2_name_nonempty_of_fields truncBuf ⟨"a", 1, EntryType.file, none⟩ (by decide)
      (Or.inl (by decide))⟩

/-- C6: `parseHeader` returns `none` exactly when the decoded magic field
does not start with `ustar`; otherwise the entry's name is assembled from
the offset-345 field and the name field, its kind follows the typeflag map
(`'5'` directory, `'2'` symlink, everything else file), and the linkname
field is read only for symlinks. -/
theorem c6_parse_header_charact (block : List Nat) :
    (parseHeader block = none ↔ ¬ strStartsWith (parseString block 257 6) "ustar" = true) ∧
    (∀ e : TarEntry, parseHeader block = some e →
      (e.name = if parseString block 345 155 ≠ "" then
          parseString block 345 155 ++ "/" ++ parseString block 0 100
        else parseString block 0 100) ∧
      (e.type = EntryType.directory ↔ Char.ofNat (block.getD 156 0) = '5') ∧
      (e.type = EntryType.symlink ↔ Char.ofNat (block.getD 156 0) = '2') ∧
      ((Char.ofNat (block.getD 156 0) ≠ '5' ∧ Char.ofNat (block.getD 156 0) ≠ '2') →
        e.type = EntryType.file) ∧
      (e.linkname =
        if e.type = EntryType.symlink then some (parseString block 157 100) else none)) := by
  constructor
  · unfold parseHeader
    split_ifs with h
    · simp [h]
    · simp [h]
  · intro e hparse
    unfold parseHeader at hparse
    obtain ⟨en, es, et, el⟩ := e
    split at hparse
    · exact absurd hparse (by simp)
    · injection hparse with hmk
      injection hmk with h1 h2 h3 h4
      subst h1
      subst h3
      subst h4
      exact ⟨rfl, entryTypeOf_eq_directory_iff _, entryTypeOf_eq_symlink_iff _,
        fun hk => entryTypeOf_eq_file _ hk, rfl⟩

/-- C3 counterexample: `truncBuf` declares a file `"a"` of size 1 but ends
right after the header; the entry is accepted and its name returned, yet
the written data is empty (0 bytes, not the declared 1 byte). -/
theorem c3_counterexample :
    parseHeader (jsSlice truncBuf 0 (0 + 512)) = some ⟨"a", 1, EntryType.file, none⟩ ∧
    extractStep "/" truncBuf "/d" ⟨0, none⟩ 0 =
      ⟨1024, [FsAction.ensureDir "/d", FsAction.writeData "/d/a" []], ["a"], false⟩ ∧
    (([] : List Nat).length : Int) ≠ (⟨"a", 1, EntryType.file, none⟩ : TarEntry).size :=
  ⟨by decide, by decide, by decide⟩

/-- C3 amended: an accepted file entry is written with the bytes of the
decompressed buffer from the cursor up to cursor + size, clamped to the
end of the buffer; whenever the declared payload lies fully inside the
buffer this is exactly `size` bytes, byte-identical to the archived
payload. -/
theorem c3_file_write_clamped (cwd : String) (tarData : List Nat) (destDir : String)
    (opts : ExtractOptions) (offset : Int) (e0 : TarEntry)
    (hparse : parseHeader (jsSlice tarData offset (offset + 512)) = some e0)
    (hstrip : ¬(0 < opts.strip ∧ stripComponents e0.name opts.strip = ""))
    (hfil : filterRejects opts (effEntry opts e0) = false)
    (habs : jsIsAbsolute (effEntry opts e0).name = false)
    (hsafe : isPathSafe cwd (jsJoin destDir (effEntry opts e0).name) destDir = true)
    (htype : e0.type = EntryType.file) :
    (extractStep cwd tarData destDir opts offset).actions =
      [FsAction.ensureDir (jsDirname (jsJoin destDir (effEntry opts e0).name)),
        FsAction.writeData (jsJoin destDir (effEntry opts e0).name)
          (jsSlice tarData (offset + 512) (offset + 512 + e0.size))] ∧
    (extractStep cwd tarData destDir opts offset).names = [(effEntry opts e0).name] ∧
    (∀ k : Nat, 0 ≤ offset → e0.size = (k : Int) →
      offset.toNat + 512 + k ≤ tarData.length →
      (jsSlice tarData (offset + 512) (offset + 512 + e0.size)).length = k ∧
      jsSlice tarData (offset + 512) (offset + 512 + e0.size) =
        (tarData.drop (offset.toNat + 512)).take k) := by
  obtain ⟨n0, s0, ty, l0⟩ := e0
  cases htype
  rw [extractStep_eq_handleEntry cwd tarData destDir opts offset _ hparse]
  unfold handleEntry
  split_ifs
  all_goals try (exfalso; simp_all; done)
  refine ⟨rfl, rfl, ?_⟩
  · intro k hoff hsz hle
    have hsz' : s0 = (k : Int) := hsz
    subst hsz'
    have hoffn : offset + 512 = ((offset.toNat + 512 : Nat) : Int) := by omega
    obtain ⟨hq1, hq2⟩ := jsSlice_nat tarData (offset.toNat + 512) k (by omega)
    rw [hoffn]
    exact ⟨hq2, hq1⟩

/-- C3 amended witness: in `fullBuf` the payload of the size-3 file lies
inside the buffer and the written slice is exactly its 3 bytes. -/
theorem c3_file_write_clamped_witness :
    (jsSlice fullBuf (0 + 512) (0 + 512 + (⟨"f", 3, EntryType.file, none⟩ : TarEntry).size)).length
        = 3 ∧
    jsSlice fullBuf (0 + 512) (0 + 512 + (⟨"f", 3, EntryType.file, none⟩ : TarEntry).size) =
      (fullBuf.drop ((0 : Int).toNat + 512)).take 3 :=
  (c3_file_write_clamped "/" fullBuf "/d" ⟨0, none⟩ 0 ⟨"f", 3, EntryType.file, none⟩
      (by decide) (by decide) (by decide) (by decide) (by decide) rfl).2.2 3
    (by decide) (by norm_num) (by decide)

/-- C6 witness: the header of `symBuf` parses with typeflag `'2'`, kind
symlink, and linkname `"t"`. -/
theorem c6_parse_header_charact_witness :
    parseHeader symBuf = some ⟨"s", 0, EntryType.symlink, some "t"⟩ ∧
    ((⟨"s", 0, EntryType.symlink, some "t"⟩ : TarEntry).type = EntryType.symlink ↔
      Char.ofNat (symBuf.getD 156 0) = '2') :=
  ⟨by decide,
    ((c6_parse_header_charact symBuf).2 ⟨"s", 0, EntryType.symlink, some "t"⟩
      (by decide)).2.2.1⟩

end Tar
